import Mathlib

/-
  Verification development for the SEAC training script (train.py).

  The script orchestrates shared-experience actor-critic training: it
  collects synchronized rollouts from a vectorized environment into one
  rollout storage per agent, dispatches return computation and updates,
  aggregates metrics, checkpoints and evaluates on fixed cadences.

  The definitions below are shallow embeddings of the corresponding
  pieces of train.py; line references point into that file.
-/

/-! ## Info dictionaries -/

/-- The reserved truncation-flag key used by the time-limit wrapper
(string literal appearing in train.py lines 64 and 219). -/
def reservedKey : String := "TimeLimit.truncated"

/-- An info dictionary as consumed by the metrics aggregator: a finite map
from string keys to numeric values, where a value may be a sequence
(numpy reduces it by summation).  A scalar is a one-element sequence. -/
abbrev MInfo := List (String × List ℚ)

/-- The keys of an info dictionary. -/
def infoKeys (d : MInfo) : List String := d.map Prod.fst

/-- Membership test for a key, the shallow embedding of the Python
expression `key in d`. -/
def infoHasKey (d : MInfo) (k : String) : Bool := decide (k ∈ infoKeys d)

/-- Dictionary access `d[key]`, embedding Python dict lookup; the default
is never reached on the call sites, which guard with `infoHasKey`. -/
def infoGet (d : MInfo) (k : String) : List ℚ := (List.lookup k d).getD []

/-- Arithmetic mean of a list of rationals, embedding `np.mean`. -/
def listMean (xs : List ℚ) : ℚ := xs.sum / xs.length

/-- Shallow embedding of `_squash_info` (train.py lines 60-68): drop empty
dicts, take the union of keys, discard the reserved truncation key, and
map each remaining key to the mean over the dicts containing it of the
summed value stored under the key. -/
def squashInfo (info : List MInfo) : List (String × ℚ) :=
  let info2 := info.filter (fun d => !d.isEmpty)
  let keys := ((info2.flatMap infoKeys).dedup).filter (fun k => !(decide (k = reservedKey)))
  keys.map (fun k =>
    (k, listMean ((info2.filter (fun d => infoHasKey d k)).map (fun d => (infoGet d k).sum))))

/-- Association-list lookup on the squashed output, embedding access such
as `info["episode_reward"]` on the result of `_squash_info`. -/
def alookup (m : List (String × ℚ)) (k : String) : Option ℚ :=
  List.lookup k m

/-! ## Masks and bad masks (train.py lines 214-222) -/

/-- An info dictionary as consumed by the mask computation: only the
boolean truncation flag is ever read from it. -/
abbrev BInfo := List (String × Bool)

/-- Embedding of `info.get("TimeLimit.truncated", False)`-style access:
lookup with a default. -/
def binfoGet (d : BInfo) (k : String) (dflt : Bool) : Bool :=
  (List.lookup k d).getD dflt

/-- Embedding of train.py line 215: `masks` is 0.0 at instances whose done
flag is set and 1.0 otherwise. -/
def stepMasks (done : List Bool) : List ℚ :=
  done.map (fun d => if d then 0 else 1)

/-- Embedding of train.py lines 217-222: `bad_masks` is 0.0 at instances
whose info dict carries a truthy reserved truncation flag, 1.0 otherwise. -/
def stepBadMasks (infos : List BInfo) : List ℚ :=
  infos.map (fun i => if binfoGet i reservedKey false then 0 else 1)

/-- Spec-side definition, following the words of the specification: the
episode terminated naturally at a step when the done flag is set and the
termination was not an artificial time-limit truncation. -/
def naturallyTerminated (done truncated : Bool) : Prop :=
  done = true ∧ truncated = false

/-- The mask part of claim C1 exactly as stated: the inserted mask is 0
exactly when the episode terminated naturally at that step. -/
def maskClaimC1 : Prop :=
  ∀ (done : List Bool) (infos : List BInfo) (k : ℕ) (d : Bool) (i : BInfo),
    done[k]? = some d → infos[k]? = some i →
    ((stepMasks done)[k]? = some 0 ↔
      naturallyTerminated d (binfoGet i reservedKey false))

/-! ## Rollout storage (mask columns) -/

/-- The per-agent rollout storage, restricted to the two columns the
claims are about: the mask and bad-mask columns.  Each `insert` during
the rollout appends one row to each column (train.py lines 223-233). -/
structure Storage where
  masksCol : List (List ℚ)
  badMasksCol : List (List ℚ)
deriving DecidableEq

/-- One `storage.insert(...)` call restricted to the mask columns. -/
def Storage.insertMasks (s : Storage) (m bm : List ℚ) : Storage :=
  { masksCol := s.masksCol ++ [m], badMasksCol := s.badMasksCol ++ [bm] }

/-- Embedding of the insert loop (train.py lines 223-233): every agent
storage receives the same `masks` and `bad_masks` computed from the done
flags and the per-instance info dicts of this step. -/
def rolloutInsertAll (storages : List Storage) (done : List Bool) (infos : List BInfo) :
    List Storage :=
  storages.map (fun s => s.insertMasks (stepMasks done) (stepBadMasks infos))

/-! ## Update-cycle event trace (train.py lines 195-251) -/

/-- Events issued by the orchestrator during one update cycle.  `insertT s
a b` records that at rollout step `s` the data of agent `a` is inserted
into the storage owned by agent `b` (train.py line 224 inserts the data of
agent `i` into `agents[i].storage`).  `updateCall i l` records the call
`agents[i].update([a.storage for a in agents])`, with `l` the agent ids
of the storages passed.  `afterUpdateT a b` records the call of
`after_update` issued for agent `a` on the storage owned by agent `b`. -/
inductive Ev where
  | actAll : ℕ → Ev
  | envStep : ℕ → Ev
  | insertT : ℕ → ℕ → ℕ → Ev
  | computeReturns : ℕ → Ev
  | updateCall : ℕ → List ℕ → Ev
  | afterUpdateT : ℕ → ℕ → Ev
deriving DecidableEq

/-- The events of one rollout step (train.py lines 197-237): act for all
agents, one synchronous environment step, then one insert per agent in
ascending agent order, each into its own storage. -/
def stepBlock (n s : ℕ) : List Ev :=
  Ev.actAll s :: Ev.envStep s :: (List.range n).map (fun i => Ev.insertT s i i)

/-- The rollout phase: `H` consecutive rollout steps. -/
def rolloutPhase (n H : ℕ) : List Ev :=
  (List.range H).flatMap (stepBlock n)

/-- The return-computation phase (train.py lines 240-241): one
`compute_returns` call per agent, in ascending agent order. -/
def returnsPhase (n : ℕ) : List Ev :=
  (List.range n).map Ev.computeReturns

/-- The update phase (train.py lines 243-244): one `update` call per
agent in ascending agent order, each passed the full ordered collection
of all storages. -/
def updatePhase (n : ℕ) : List Ev :=
  (List.range n).map (fun i => Ev.updateCall i (List.range n))

/-- The after-update phase (train.py lines 250-251): one `after_update`
per agent, on the storage it owns. -/
def afterPhase (n : ℕ) : List Ev :=
  (List.range n).map (fun i => Ev.afterUpdateT i i)

/-- The post-rollout part of the cycle: return computation for every
agent, then the updates, then the after-update calls. -/
def postPhase (n : ℕ) : List Ev :=
  returnsPhase n ++ updatePhase n ++ afterPhase n

/-- The full event trace of one update cycle with `n` agents and rollout
horizon `H` (train.py lines 195-251). -/
def cycleTrace (n H : ℕ) : List Ev :=
  rolloutPhase n H ++ postPhase n

/-- Recognizer for environment-step events. -/
def Ev.isEnvStep : Ev → Bool
  | .envStep _ => true
  | _ => false

/-- Recognizer for return-computation events. -/
def Ev.isReturns : Ev → Bool
  | .computeReturns _ => true
  | _ => false

/-- Recognizer for update-call events. -/
def Ev.isUpdateCall : Ev → Bool
  | .updateCall _ _ => true
  | _ => false

/-- Recognizer for after-update events. -/
def Ev.isAfterUpdate : Ev → Bool
  | .afterUpdateT _ _ => true
  | _ => false

/-! ## Shared-experience update cycle as a state transformer (claim C8)

The file a2c.py, which holds the body of the `A2C.update` method, is not
among the sources; only its call site (train.py line 244) is.  Its
storage-access behaviour is therefore modelled from the spec. -/

/-- The orchestrator state during the update phase: the ordered collection
of all agent storages and the per-agent Policy Model parameters
(abstracted to one integer per agent). -/
structure TrainState where
  storages : List Storage
  params : List ℤ
deriving DecidableEq

/-- Modelled from the spec: the `update` method of an agent (its body
lives in a2c.py, which is not part of the sources; only the call at
train.py line 244 is).  Per the spec, `update(all_agent_storages)` reads
the full collection of storages passed to it and mutates only the calling
agent Policy Model parameters, returning scalar losses; the learning rule
itself is left abstract as the parameter `rule`. -/
def agentUpdate (rule : List Storage → ℤ → ℤ) (st : TrainState) (i : ℕ) : TrainState :=
  { storages := st.storages, params := st.params.set i (rule st.storages (st.params.getD i 0)) }

/-- Running the update calls of one cycle in the given agent order. -/
def runUpdates (rule : List Storage → ℤ → ℤ) (order : List ℕ) (st : TrainState) : TrainState :=
  order.foldl (agentUpdate rule) st

/-- The collection of storages passed (read-only) to each successive
update call when the calls run in the given agent order. -/
def updateReadsSeq (rule : List Storage → ℤ → ℤ) : List ℕ → TrainState → List (List Storage)
  | [], _ => []
  | i :: rest, st => st.storages :: updateReadsSeq rule rest (agentUpdate rule st i)

/-! ## Evaluation loop (train.py lines 70-132) -/

/-- The argument record of a `make_vec_envs` call; the fourth positional
argument is the number of parallel environment instances (train.py
lines 83-92 pass `episodes_per_eval` there). -/
structure VecEnvArgs where
  envName : String
  seed : ℕ
  dummyVecenv : Bool
  numEnvs : ℕ
  timeLimit : ℕ
deriving DecidableEq

/-- The `make_vec_envs` call of `evaluate` (train.py lines 83-92): the
evaluation environment is built with `episodes_per_eval` parallel
instances. -/
def evalEnvArgs (envName : String) (seed : ℕ) (dummy : Bool)
    (episodesPerEval timeLimit : ℕ) : VecEnvArgs :=
  { envName := envName, seed := seed, dummyVecenv := dummy,
    numEnvs := episodesPerEval, timeLimit := timeLimit }

/-- The non-empty info dicts of one environment step, embedding the list
comprehension `[i for i in infos if i]` (train.py line 126). -/
def nonemptyInfos (l : List MInfo) : List MInfo :=
  l.filter (fun d => !d.isEmpty)

/-- All non-empty info dicts produced by the first `t` environment steps,
where `stepInfos` is the stream of per-step info lists the environment
yields (the environment itself is an external collaborator). -/
def collectedBy (stepInfos : ℕ → List MInfo) (t : ℕ) : List MInfo :=
  (List.range t).flatMap (fun s => nonemptyInfos (stepInfos s))

/-- The evaluation while-loop (train.py lines 105-126), with explicit
fuel: while fewer than `episodesPerEval` non-empty infos are collected,
step the environment and extend the collection; `none` means the fuel ran
out with the loop still running. -/
def evalLoopGo (stepInfos : ℕ → List MInfo) (episodesPerEval : ℕ) :
    ℕ → ℕ → List MInfo → Option (List MInfo)
  | 0, _, acc => if episodesPerEval ≤ acc.length then some acc else none
  | fuel + 1, t, acc =>
      if episodesPerEval ≤ acc.length then some acc
      else evalLoopGo stepInfos episodesPerEval fuel (t + 1) (acc ++ nonemptyInfos (stepInfos t))

/-- The evaluation loop started from an empty collection at step 0. -/
def evalLoopRun (stepInfos : ℕ → List MInfo) (episodesPerEval fuel : ℕ) :
    Option (List MInfo) :=
  evalLoopGo stepInfos episodesPerEval fuel 0 []

/-- Whether `eval_envs.close()` (train.py line 128) runs: it does exactly
when the while-loop before it terminates. -/
def evalEnvClosed (stepInfos : ℕ → List MInfo) (episodesPerEval fuel : ℕ) : Bool :=
  (evalLoopRun stepInfos episodesPerEval fuel).isSome

/-- The value reported at train.py lines 129-132: the entry of the
squashed collected infos under the key for the mean episode reward. -/
def evalReport (stepInfos : ℕ → List MInfo) (episodesPerEval fuel : ℕ) :
    Option (Option ℚ) :=
  (evalLoopRun stepInfos episodesPerEval fuel).map
    (fun acc => alookup (squashInfo acc) "episode_reward")

/-! ## Mask variable of the evaluation loop (claim C9) -/

/-- The value of the `masks` variable of `evaluate` at the start of
iteration `t` of the while-loop: it is created as an all-zeros tensor
before the loop (train.py line 101) and the loop body contains no
assignment to it, so each iteration carries it over unchanged.  The done
flags the environment produces (`doneStream`) never flow into it. -/
def evalMasksVar (episodesPerEval : ℕ) (doneStream : ℕ → List Bool) : ℕ → List ℚ
  | 0 => List.replicate episodesPerEval 0
  | t + 1 => evalMasksVar episodesPerEval doneStream t

/-- The mask argument passed to the `act` call of agent `a` at iteration
`t` of the evaluation loop (train.py line 110 passes the `masks` variable
for every agent). -/
def maskPassedToAct (episodesPerEval : ℕ) (doneStream : ℕ → List Bool)
    (a t : ℕ) : List ℚ :=
  evalMasksVar episodesPerEval doneStream t

/-- The dead per-step mask tensor `n_masks` computed at train.py lines
121-125 from the done flags of iteration `t`; no later code reads it. -/
def nMasksAt (doneStream : ℕ → List Bool) (t : ℕ) : List ℚ :=
  (doneStream t).map (fun d => if d then 0 else 1)

/-! ## Metrics flush (train.py lines 253-268 and 193) -/

/-- The guard of the metrics-flush block, embedding train.py line 253:
`j % log_interval == 0 and len(all_infos) > 1`. -/
def logFlushCond (logInterval j windowLen : ℕ) : Bool :=
  (j % logInterval == 0) && decide (1 < windowLen)

/-- The metrics-flush block acting on the info window: when the guard
holds, the metrics are flushed and the window is cleared (train.py line
268); otherwise the window is untouched.  The boolean records whether a
flush happened. -/
def logBlock (logInterval j : ℕ) (window : List MInfo) : List MInfo × Bool :=
  if logFlushCond logInterval j window.length then ([], true) else (window, false)

/-- Claim C5 exactly as stated: metrics are flushed if and only if
`j % log_interval == 0` and the info window is non-empty. -/
def flushClaimC5 : Prop :=
  ∀ (logInterval j : ℕ) (window : List MInfo),
    ((logBlock logInterval j window).2 = true ↔ (j % logInterval = 0 ∧ window ≠ []))

/-! ## Checkpoint and evaluation cadences (train.py lines 270-284) -/

/-- The checkpoint guard, embedding train.py lines 270-272:
`save_interval is not None and (j > 0 and j % save_interval == 0 or
j == num_updates)`. -/
def saveTriggerCond (saveInterval : Option ℕ) (j numUpdates : ℕ) : Bool :=
  match saveInterval with
  | none => false
  | some s => (decide (0 < j) && (j % s == 0)) || (j == numUpdates)

/-- The evaluation guard, embedding train.py lines 282-284, of the same
shape as the checkpoint guard. -/
def evalTriggerCond (evalInterval : Option ℕ) (j numUpdates : ℕ) : Bool :=
  match evalInterval with
  | none => false
  | some e => (decide (0 < j) && (j % e == 0)) || (j == numUpdates)

/-! ## Checkpoint cycle (train.py lines 273-280) -/

/-- Filesystem-level events of one checkpoint cycle `j`: creating the
per-agent subdirectory of the cycle directory, saving the parameters of
one agent into it, archiving the whole cycle directory into one
compressed tar file, deleting the uncompressed cycle directory, and
uploading the archive. -/
inductive CkEv where
  | makedirs : ℕ → ℕ → CkEv
  | saveAgent : ℕ → ℕ → CkEv
  | archive : ℕ → CkEv
  | rmtree : ℕ → CkEv
  | logArtifact : ℕ → CkEv
deriving DecidableEq

/-- The per-agent part of checkpoint cycle `j` (train.py lines 274-277):
for each agent, in ascending order, create its subdirectory and save its
model parameters into it. -/
def ckPerAgent (n j : ℕ) : List CkEv :=
  (List.range n).flatMap (fun i => [CkEv.makedirs j i, CkEv.saveAgent j i])

/-- The full event list of checkpoint cycle `j` with `n` agents
(train.py lines 273-280). -/
def checkpointTrace (n j : ℕ) : List CkEv :=
  ckPerAgent n j ++ [CkEv.archive j, CkEv.rmtree j, CkEv.logArtifact j]

/-! ## Step counters at the log point (train.py lines 194-196, 256-267) -/

/-- The value of the `environment_steps` variable at the log point of
iteration `j`: initialized to 0 before the loop (train.py line 194) and
incremented by `num_steps * num_envs` at the top of every iteration
(train.py line 196). -/
def environmentStepsAt (numSteps numEnvs : ℕ) : ℕ → ℕ
  | 0 => 0
  | j + 1 => environmentStepsAt numSteps numEnvs j + numSteps * numEnvs

/-- The `total_num_steps` value computed at the log point of iteration
`j` (train.py lines 256-258), printed as the number of timesteps and used
for the FPS figure. -/
def totalNumSteps (numEnvs numSteps j : ℕ) : ℕ :=
  (j + 1) * numEnvs * numSteps

/-! ## Theorems -/

/-- Helper: membership characterization of the squashed metrics map. -/
theorem squash_mem_iff (info : List MInfo) (k : String) (v : ℚ) :
    (k, v) ∈ squashInfo info ↔
      (k ≠ reservedKey ∧ (∃ d ∈ info, d ≠ [] ∧ infoHasKey d k = true) ∧
       v = listMean (((info.filter (fun d => !d.isEmpty)).filter
            (fun d => infoHasKey d k)).map (fun d => (infoGet d k).sum))) := by
  unfold squashInfo
  simp only [List.mem_map, List.mem_filter, List.mem_dedup, List.mem_flatMap,
    Prod.mk.injEq, Bool.not_eq_true', decide_eq_false_iff_not, infoHasKey,
    decide_eq_true_eq, List.isEmpty_eq_false]
  constructor
  · rintro ⟨k2, ⟨⟨d, ⟨hd, hde⟩, hkd⟩, hres⟩, rfl, rfl⟩
    exact ⟨hres, ⟨d, hd, hde, hkd⟩, rfl⟩
  · rintro ⟨hres, ⟨d, hd, hde, hkd⟩, rfl⟩
    exact ⟨k, ⟨⟨d, ⟨hd, hde⟩, hkd⟩, hres⟩, rfl, rfl⟩

/-- Claim C2: the metrics squash operation drops empty dicts, takes the
union of keys across the remaining dicts excluding the reserved
truncation-flag key, and maps each remaining key to the mean, over
exactly the dicts containing that key, of the value reduced by summation;
in particular squashing the empty list or a list of empty dicts yields
the empty mapping, squashing two dicts with the same key averages their
summed values, and the reserved key never appears in the output. -/
theorem seac_c2_squash :
    squashInfo [] = [] ∧
    squashInfo [[], []] = [] ∧
    squashInfo [[("r", [(1:ℚ)])], [("r", [(3:ℚ)])]] = [("r", (2:ℚ))] ∧
    (∀ (info : List MInfo) (v : ℚ), (reservedKey, v) ∉ squashInfo info) ∧
    (∀ (info : List MInfo) (k : String) (v : ℚ), (k, v) ∈ squashInfo info ↔
      (k ≠ reservedKey ∧ (∃ d ∈ info, d ≠ [] ∧ infoHasKey d k = true) ∧
       v = listMean (((info.filter (fun d => !d.isEmpty)).filter
            (fun d => infoHasKey d k)).map (fun d => (infoGet d k).sum)))) := by
  refine ⟨rfl, rfl, ?_, ?_, squash_mem_iff⟩
  · simp +decide [squashInfo, infoGet, infoHasKey, infoKeys, listMean, reservedKey,
      List.lookup, List.dedup, List.pwFilter]
    norm_num
  · intro info v h
    exact ((squash_mem_iff info reservedKey v).mp h).1 rfl

/-- Witness for claim C2 at a concrete input: the key r of a singleton
input dict appears in the squashed output with the summed value. -/
theorem seac_c2_witness :
    ("r", (5:ℚ)) ∈ squashInfo [[("r", [(2:ℚ), (3:ℚ)])]] := by
  refine (seac_c2_squash.2.2.2.2 [[("r", [(2:ℚ), (3:ℚ)])]] "r" 5).mpr ⟨?_, ?_, ?_⟩
  · decide
  · exact ⟨[("r", [(2:ℚ), (3:ℚ)])], by simp, by simp, by decide⟩
  · simp +decide [listMean, infoGet, infoHasKey, infoKeys, List.lookup]
    norm_num

/-- Claim C1, counterexample: at an instance whose episode ends by an
artificial time-limit truncation (done flag set, reserved truncation flag
truthy in the info dict), the code inserts mask 0 although the episode
did not terminate naturally, so the mask is not 0 exactly at natural
terminations. -/
theorem seac_c1_cex : ¬ maskClaimC1 := by
  intro h
  have h3 : binfoGet [(reservedKey, true)] reservedKey false = true := by decide
  have h2 := (h [true] [[(reservedKey, true)]] 0 true [(reservedKey, true)] rfl rfl).mp rfl
  rw [naturallyTerminated, h3] at h2
  exact absurd h2.2 (by decide)

/-- Claim C1 as amended: for every rollout step, the mask and bad-mask
lists computed from the done flags and the per-instance info dicts are
appended to every agent storage; the mask of an instance is 0 exactly
when its done flag is set (episode over, naturally or by truncation) and
1 otherwise, and its bad mask is 0 exactly when the reserved truncation
flag of its info dict is truthy and 1 otherwise. -/
theorem seac_c1_amended (storages : List Storage) (done : List Bool) (infos : List BInfo)
    (s : Storage) (hs : s ∈ rolloutInsertAll storages done infos)
    (k : ℕ) (d : Bool) (i : BInfo) (hd : done[k]? = some d) (hi : infos[k]? = some i) :
    s.masksCol.getLast? = some (stepMasks done) ∧
    s.badMasksCol.getLast? = some (stepBadMasks infos) ∧
    ((stepMasks done)[k]? = some 0 ↔ d = true) ∧
    ((stepMasks done)[k]? = some 1 ↔ d = false) ∧
    ((stepBadMasks infos)[k]? = some 0 ↔ binfoGet i reservedKey false = true) ∧
    ((stepBadMasks infos)[k]? = some 1 ↔ binfoGet i reservedKey false = false) := by
  obtain ⟨s0, hs0, rfl⟩ := List.mem_map.mp hs
  refine ⟨?_, ?_, ?_, ?_, ?_, ?_⟩
  · simp [Storage.insertMasks]
  · simp [Storage.insertMasks]
  · rw [stepMasks, List.getElem?_map, hd]; cases d <;> simp
  · rw [stepMasks, List.getElem?_map, hd]; cases d <;> simp
  · rw [stepBadMasks, List.getElem?_map, hi]
    cases hb : binfoGet i reservedKey false <;> simp [hb]
  · rw [stepBadMasks, List.getElem?_map, hi]
    cases hb : binfoGet i reservedKey false <;> simp [hb]

/-- Witness for the amended claim C1 at a concrete rollout step: one
environment instance that is truncated by the time limit (done flag set,
truncation flag truthy) yields mask 0 and bad mask 0, appended to the
storage. -/
theorem seac_c1_witness :
    ((Storage.mk [] []).insertMasks (stepMasks [true])
        (stepBadMasks [[(reservedKey, true)]])).masksCol.getLast? = some (stepMasks [true]) ∧
    ((Storage.mk [] []).insertMasks (stepMasks [true])
        (stepBadMasks [[(reservedKey, true)]])).badMasksCol.getLast? =
      some (stepBadMasks [[(reservedKey, true)]]) ∧
    ((stepMasks [true])[0]? = some 0 ↔ true = true) ∧
    ((stepMasks [true])[0]? = some 1 ↔ true = false) ∧
    ((stepBadMasks [[(reservedKey, true)]])[0]? = some 0 ↔
      binfoGet [(reservedKey, true)] reservedKey false = true) ∧
    ((stepBadMasks [[(reservedKey, true)]])[0]? = some 1 ↔
      binfoGet [(reservedKey, true)] reservedKey false = false) :=
  seac_c1_amended [Storage.mk [] []] [true] [[(reservedKey, true)]]
    ((Storage.mk [] []).insertMasks (stepMasks [true]) (stepBadMasks [[(reservedKey, true)]]))
    (by simp [rolloutInsertAll]) 0 true [(reservedKey, true)] rfl rfl

/-- Claim C5, counterexample: at an update index divisible by the log
interval with exactly one entry in the info window (non-empty), the code
does not flush, because the guard at train.py line 253 requires strictly
more than one entry, not a non-empty window. -/
theorem seac_c5_cex : ¬ flushClaimC5 := by
  intro h
  have h2 := (h 100 100 [[("r", [1])]]).mpr ⟨by norm_num, by simp⟩
  simp [logBlock, logFlushCond] at h2

/-- Claim C5 as amended: aggregated metrics are flushed if and only if
the update index is divisible by the log interval and the info window
holds strictly more than one entry; the window is cleared immediately
after each flush and left untouched otherwise. -/
theorem seac_c5_amended (logInterval j : ℕ) (window : List MInfo) :
    ((logBlock logInterval j window).2 = true ↔
      (j % logInterval = 0 ∧ 1 < window.length)) ∧
    ((logBlock logInterval j window).2 = true → (logBlock logInterval j window).1 = []) ∧
    ((logBlock logInterval j window).2 = false → (logBlock logInterval j window).1 = window) := by
  have hc : logFlushCond logInterval j window.length = true ↔
      (j % logInterval = 0 ∧ 1 < window.length) := by
    simp [logFlushCond]
  unfold logBlock
  split
  case isTrue h => exact ⟨by simpa using hc.mp h, fun _ => rfl, by simp⟩
  case isFalse h =>
    rw [hc] at h
    exact ⟨by simpa using h, by simp, fun _ => rfl⟩

/-- Witness for the amended claim C5 at a concrete input: with log
interval 100, update index 200 and a window of two entries, a flush
happens and the window is cleared. -/
theorem seac_c5_witness :
    ((logBlock 100 200 [[("r", [(1:ℚ)])], [("r", [(2:ℚ)])]]).2 = true ↔
      (200 % 100 = 0 ∧ 1 < ([[("r", [(1:ℚ)])], [("r", [(2:ℚ)])]] : List MInfo).length)) ∧
    ((logBlock 100 200 [[("r", [(1:ℚ)])], [("r", [(2:ℚ)])]]).2 = true →
      (logBlock 100 200 [[("r", [(1:ℚ)])], [("r", [(2:ℚ)])]]).1 = []) ∧
    ((logBlock 100 200 [[("r", [(1:ℚ)])], [("r", [(2:ℚ)])]]).2 = false →
      (logBlock 100 200 [[("r", [(1:ℚ)])], [("r", [(2:ℚ)])]]).1 =
        [[("r", [(1:ℚ)])], [("r", [(2:ℚ)])]]) :=
  seac_c5_amended 100 200 [[("r", [(1:ℚ)])], [("r", [(2:ℚ)])]]

/-- Claim C6: for every update index j between 1 and the number of
updates, a checkpoint is triggered exactly when j is divisible by the
save interval or j is the final update, and an evaluation is triggered
exactly when j is divisible by the eval interval or j is the final
update, provided the respective interval is configured (not None); an
unconfigured interval never triggers.  The positivity hypotheses on the
intervals reflect that a zero interval would crash the Python modulo. -/
theorem seac_c6_cadence (s e j numUpdates : ℕ) (h1 : 1 ≤ j) (h2 : j ≤ numUpdates)
    (hs : 0 < s) (he : 0 < e) :
    (saveTriggerCond (some s) j numUpdates = true ↔ (j % s = 0 ∨ j = numUpdates)) ∧
    (evalTriggerCond (some e) j numUpdates = true ↔ (j % e = 0 ∨ j = numUpdates)) ∧
    saveTriggerCond none j numUpdates = false ∧
    evalTriggerCond none j numUpdates = false := by
  refine ⟨?_, ?_, rfl, rfl⟩ <;>
    · simp only [saveTriggerCond, evalTriggerCond, Bool.or_eq_true, Bool.and_eq_true,
        decide_eq_true_eq, beq_iff_eq]
      omega

/-- Witness for claim C6 at a concrete input: with both intervals 2,
update index 2 of 5 triggers both checkpoint and evaluation (2 mod 2 is
0), and unconfigured intervals trigger nothing. -/
theorem seac_c6_witness :
    ((saveTriggerCond (some 2) 2 5 = true ↔ (2 % 2 = 0 ∨ 2 = 5)) ∧
     (evalTriggerCond (some 2) 2 5 = true ↔ (2 % 2 = 0 ∨ 2 = 5)) ∧
     saveTriggerCond none 2 5 = false ∧
     evalTriggerCond none 2 5 = false) ∧
    saveTriggerCond (some 2) 2 5 = true :=
  ⟨seac_c6_cadence 2 2 2 5 (by norm_num) (by norm_num) (by norm_num) (by norm_num),
   by decide⟩

/-- Helper: the masks variable of the evaluation loop stays the all-zeros
tensor created before the loop, whatever done flags the environment
produces. -/
theorem evalMasksVar_eq_zeros (episodesPerEval : ℕ) (doneStream : ℕ → List Bool) :
    ∀ t, evalMasksVar episodesPerEval doneStream t = List.replicate episodesPerEval 0 := by
  intro t
  induction t with
  | zero => rfl
  | succ t ih => exact ih

/-- Claim C9: in the evaluation loop, the mask tensor passed to the act
call of every agent at every iteration is the all-zeros tensor created
before the loop; it does not depend on the done flags the environment
produces, and each iteration carries it over unchanged, while the
per-step mask tensor computed inside the loop from the done flags is
never used, so policies are evaluated as if every step were an episode
start. -/
theorem seac_c9_eval_masks (episodesPerEval : ℕ) (doneStream doneStream2 : ℕ → List Bool)
    (a t : ℕ) :
    maskPassedToAct episodesPerEval doneStream a t = List.replicate episodesPerEval 0 ∧
    maskPassedToAct episodesPerEval doneStream a t =
      maskPassedToAct episodesPerEval doneStream2 a t ∧
    evalMasksVar episodesPerEval doneStream (t + 1) = evalMasksVar episodesPerEval doneStream t ∧
    nMasksAt doneStream t = (doneStream t).map (fun d => if d then 0 else 1) := by
  refine ⟨evalMasksVar_eq_zeros episodesPerEval doneStream t, ?_, rfl, rfl⟩
  rw [maskPassedToAct, maskPassedToAct, evalMasksVar_eq_zeros, evalMasksVar_eq_zeros]

/-- Claim C10: at the log point of update cycle j, the printed timestep
count (also used for the FPS figure) is (j+1) * num_envs * num_steps,
while the environment-steps counter sent to the metrics sink is
j * num_envs * num_steps; the two differ by exactly one cycle of
environment steps, num_envs * num_steps. -/
theorem seac_c10_counters (numSteps numEnvs j : ℕ) :
    totalNumSteps numEnvs numSteps j = (j + 1) * numEnvs * numSteps ∧
    environmentStepsAt numSteps numEnvs j = j * numEnvs * numSteps ∧
    totalNumSteps numEnvs numSteps j =
      environmentStepsAt numSteps numEnvs j + numEnvs * numSteps := by
  have h : ∀ m, environmentStepsAt numSteps numEnvs m = m * numEnvs * numSteps := by
    intro m
    induction m with
    | zero => simp [environmentStepsAt]
    | succ m ih =>
        show environmentStepsAt numSteps numEnvs m + numSteps * numEnvs = _
        rw [ih]; ring
  exact ⟨rfl, h j, by rw [h j]; unfold totalNumSteps; ring⟩

/-- Helper: filtering a mapped list whose image never satisfies the
predicate yields the empty list. -/
theorem filter_map_nil {α β : Type} (f : α → β) (p : β → Bool) (l : List α)
    (h : ∀ a, p (f a) = false) : (l.map f).filter p = [] := by
  induction l with
  | nil => rfl
  | cons a l ih => simp [List.filter_cons, h, ih]

/-- Helper: the rollout phase grows by one step block per step. -/
theorem rolloutPhase_succ (n H : ℕ) :
    rolloutPhase n (H + 1) = rolloutPhase n H ++ stepBlock n H := by
  simp [rolloutPhase, List.range_succ]

/-- Helper: one step block holds one act, one environment step and `n`
inserts. -/
theorem stepBlock_length (n s : ℕ) : (stepBlock n s).length = n + 2 := by
  simp [stepBlock]

/-- Helper: the rollout phase holds `H * (n + 2)` events. -/
theorem rolloutPhase_length (n H : ℕ) : (rolloutPhase n H).length = H * (n + 2) := by
  induction H with
  | zero => simp [rolloutPhase]
  | succ H ih =>
      rw [rolloutPhase_succ, List.length_append, ih, stepBlock_length]
      ring

/-- Helper: one step block holds exactly one environment step. -/
theorem stepBlock_filter_env (n s : ℕ) :
    (stepBlock n s).filter Ev.isEnvStep = [Ev.envStep s] := by
  have h : ((List.range n).map (fun i => Ev.insertT s i i)).filter Ev.isEnvStep = [] :=
    filter_map_nil _ _ _ (fun a => rfl)
  simp [stepBlock, List.filter_cons, Ev.isEnvStep, h]

/-- Helper: the environment steps of the rollout phase are steps 0..H-1
in order. -/
theorem rolloutPhase_filter_env (n H : ℕ) :
    (rolloutPhase n H).filter Ev.isEnvStep = (List.range H).map Ev.envStep := by
  induction H with
  | zero => rfl
  | succ H ih =>
      rw [rolloutPhase_succ, List.filter_append, ih, stepBlock_filter_env,
        List.range_succ, List.map_append]
      rfl

/-- Helper: the rollout phase holds no return-computation, update or
after-update events. -/
theorem rolloutPhase_filter_post (n H : ℕ) :
    (rolloutPhase n H).filter
      (fun e => e.isReturns || e.isUpdateCall || e.isAfterUpdate) = [] := by
  induction H with
  | zero => rfl
  | succ H ih =>
      rw [rolloutPhase_succ, List.filter_append, ih]
      have h : ((List.range n).map (fun i => Ev.insertT H i i)).filter
          (fun e => e.isReturns || e.isUpdateCall || e.isAfterUpdate) = [] :=
        filter_map_nil _ _ _ (fun a => rfl)
      simp [stepBlock, List.filter_cons, Ev.isReturns, Ev.isUpdateCall, Ev.isAfterUpdate, h]

/-- Helper: the post phase holds no environment-step events. -/
theorem postPhase_filter_env (n : ℕ) :
    (postPhase n).filter Ev.isEnvStep = [] := by
  have h1 : (returnsPhase n).filter Ev.isEnvStep = [] := by
    rw [returnsPhase]; exact filter_map_nil _ _ _ (fun a => rfl)
  have h2 : (updatePhase n).filter Ev.isEnvStep = [] := by
    rw [updatePhase]; exact filter_map_nil _ _ _ (fun a => rfl)
  have h3 : (afterPhase n).filter Ev.isEnvStep = [] := by
    rw [afterPhase]; exact filter_map_nil _ _ _ (fun a => rfl)
  simp [postPhase, List.filter_append, h1, h2, h3]

/-- Claim C3: in every update cycle the orchestrator performs exactly H
rollout steps (each with one synchronous environment step); only after
all of them come the per-agent calls, namely compute_returns for every
agent, then update for every agent in ascending agent-id order with each
call passed the full ordered collection of all agents storages, and only
after all updates the after_update call on every agent storage. -/
theorem seac_c3_cycle (n H : ℕ) :
    (cycleTrace n H).filter Ev.isEnvStep = (List.range H).map Ev.envStep ∧
    (cycleTrace n H).take (H * (n + 2)) = rolloutPhase n H ∧
    (cycleTrace n H).drop (H * (n + 2)) = postPhase n ∧
    (rolloutPhase n H).filter
      (fun e => e.isReturns || e.isUpdateCall || e.isAfterUpdate) = [] ∧
    postPhase n = (List.range n).map Ev.computeReturns ++
      (List.range n).map (fun i => Ev.updateCall i (List.range n)) ++
      (List.range n).map (fun i => Ev.afterUpdateT i i) := by
  refine ⟨?_, ?_, ?_, rolloutPhase_filter_post n H, rfl⟩
  · rw [cycleTrace, List.filter_append, rolloutPhase_filter_env, postPhase_filter_env]
    simp
  · exact List.take_left' (rolloutPhase_length n H)
  · exact List.drop_left' (rolloutPhase_length n H)

/-- Helper: the per-agent checkpoint events grow two at a time. -/
theorem ckPerAgent_succ (n j : ℕ) :
    ckPerAgent (n + 1) j = ckPerAgent n j ++ [CkEv.makedirs j n, CkEv.saveAgent j n] := by
  simp [ckPerAgent, List.range_succ]

/-- Helper: the per-agent checkpoint events number two per agent. -/
theorem ckPerAgent_length (n j : ℕ) : (ckPerAgent n j).length = 2 * n := by
  induction n with
  | zero => rfl
  | succ n ih =>
      rw [ckPerAgent_succ, List.length_append, ih]
      simp
      omega

/-- Claim C7: a checkpoint cycle consists of exactly one pair of events
per agent, creating the per-agent subdirectory of the cycle directory and
saving the agent model parameters into it, for precisely the agents
0..n-1; only after all of these the cycle directory is archived into a
single compressed tar file, then the uncompressed cycle directory is
deleted, and the archive is uploaded; no archive or delete event occurs
among the per-agent events. -/
theorem seac_c7_checkpoint (n j i : ℕ) :
    (checkpointTrace n j).length = 2 * n + 3 ∧
    (checkpointTrace n j).take (2 * n) = ckPerAgent n j ∧
    (checkpointTrace n j).drop (2 * n) =
      [CkEv.archive j, CkEv.rmtree j, CkEv.logArtifact j] ∧
    (CkEv.saveAgent j i ∈ ckPerAgent n j ↔ i < n) ∧
    (CkEv.makedirs j i ∈ ckPerAgent n j ↔ i < n) ∧
    (∀ c, CkEv.archive c ∉ ckPerAgent n j) ∧
    (∀ c, CkEv.rmtree c ∉ ckPerAgent n j) := by
  have hlen := ckPerAgent_length n j
  refine ⟨?_, List.take_left' hlen, List.drop_left' hlen, ?_, ?_, ?_, ?_⟩
  · rw [checkpointTrace, List.length_append, hlen]
    rfl
  · simp [ckPerAgent, List.mem_flatMap]
  · simp [ckPerAgent, List.mem_flatMap]
  · intro c
    simp [ckPerAgent, List.mem_flatMap]
  · intro c
    simp [ckPerAgent, List.mem_flatMap]

/-- Witness for claim C7 at a concrete input: with two agents at cycle 7,
the trace ends with archive, delete and upload, and agent 1 is saved
while agent 2 does not exist. -/
theorem seac_c7_witness :
    ((checkpointTrace 2 7).length = 2 * 2 + 3 ∧
     (checkpointTrace 2 7).take (2 * 2) = ckPerAgent 2 7 ∧
     (checkpointTrace 2 7).drop (2 * 2) =
       [CkEv.archive 7, CkEv.rmtree 7, CkEv.logArtifact 7] ∧
     (CkEv.saveAgent 7 1 ∈ ckPerAgent 2 7 ↔ 1 < 2) ∧
     (CkEv.makedirs 7 1 ∈ ckPerAgent 2 7 ↔ 1 < 2) ∧
     (∀ c, CkEv.archive c ∉ ckPerAgent 2 7) ∧
     (∀ c, CkEv.rmtree c ∉ ckPerAgent 2 7)) ∧
    CkEv.saveAgent 7 2 ∉ ckPerAgent 2 7 :=
  ⟨seac_c7_checkpoint 2 7 1, fun h => by
    have := (seac_c7_checkpoint 2 7 2).2.2.2.1.mp h
    omega⟩

/-- Helper: the infos collected by the first t+1 steps extend those of
the first t steps by the non-empty infos of step t. -/
theorem collectedBy_succ (f : ℕ → List MInfo) (t : ℕ) :
    collectedBy f (t + 1) = collectedBy f t ++ nonemptyInfos (f t) := by
  simp [collectedBy, List.range_succ]

/-- Helper: an environment that never emits an info dict never
contributes to the collection. -/
theorem collectedBy_nil (t : ℕ) : collectedBy (fun _ => ([] : List MInfo)) t = [] := by
  induction t with
  | zero => rfl
  | succ t ih => rw [collectedBy_succ, ih]; rfl

/-- Helper: when the evaluation loop terminates, it has collected at
least the requested number of non-empty infos, and the collection is
exactly the non-empty infos of an initial segment of environment steps. -/
theorem evalLoopGo_some (f : ℕ → List MInfo) (N : ℕ) :
    ∀ (fuel t : ℕ) (r : List MInfo),
      evalLoopGo f N fuel t (collectedBy f t) = some r →
      N ≤ r.length ∧ ∃ T, r = collectedBy f T := by
  intro fuel
  induction fuel with
  | zero =>
      intro t r h
      simp only [evalLoopGo] at h
      split at h
      · cases h
        exact ⟨by assumption, t, rfl⟩
      · cases h
  | succ fuel ih =>
      intro t r h
      simp only [evalLoopGo] at h
      split at h
      · cases h
        exact ⟨by assumption, t, rfl⟩
      · rw [← collectedBy_succ] at h
        exact ih (t + 1) r h

/-- Helper: when the environment never accumulates enough non-empty
infos, the evaluation loop runs forever (returns none at every fuel). -/
theorem evalLoopGo_none (f : ℕ → List MInfo) (N : ℕ)
    (hlt : ∀ t, (collectedBy f t).length < N) :
    ∀ (fuel t : ℕ), evalLoopGo f N fuel t (collectedBy f t) = none := by
  intro fuel
  induction fuel with
  | zero =>
      intro t
      simp only [evalLoopGo]
      rw [if_neg (Nat.not_le.mpr (hlt t))]
  | succ fuel ih =>
      intro t
      simp only [evalLoopGo]
      rw [if_neg (Nat.not_le.mpr (hlt t)), ← collectedBy_succ]
      exact ih (t + 1)

/-- Claim C4: the evaluation run builds a fresh vectorized environment
with exactly episodes_per_eval parallel instances; the loop keeps
stepping until at least episodes_per_eval non-empty info dicts are
collected (the result, when the loop exits, is that collection, an
initial segment of the stream of completed-episode infos); if the
environment never yields that many completed episodes the loop never
terminates; on termination the environment is closed and the squashed
mean episode reward of the collected infos is reported. -/
theorem seac_c4_eval (stepInfos : ℕ → List MInfo) (episodesPerEval fuel : ℕ)
    (envName : String) (seed : ℕ) (dummy : Bool) (timeLimit : ℕ) :
    (evalEnvArgs envName seed dummy episodesPerEval timeLimit).numEnvs = episodesPerEval ∧
    (∀ r, evalLoopRun stepInfos episodesPerEval fuel = some r →
       episodesPerEval ≤ r.length ∧ ∃ T, r = collectedBy stepInfos T) ∧
    ((∀ t, (collectedBy stepInfos t).length < episodesPerEval) →
       evalLoopRun stepInfos episodesPerEval fuel = none) ∧
    (∀ r, evalLoopRun stepInfos episodesPerEval fuel = some r →
       evalReport stepInfos episodesPerEval fuel =
         some (alookup (squashInfo r) "episode_reward") ∧
       evalEnvClosed stepInfos episodesPerEval fuel = true) ∧
    (evalEnvClosed stepInfos episodesPerEval fuel = true ↔
       (evalLoopRun stepInfos episodesPerEval fuel).isSome = true) := by
  refine ⟨rfl, ?_, ?_, ?_, Iff.rfl⟩
  · intro r h
    exact evalLoopGo_some stepInfos episodesPerEval fuel 0 r h
  · intro hlt
    exact evalLoopGo_none stepInfos episodesPerEval hlt fuel 0
  · intro r h
    refine ⟨?_, ?_⟩
    · rw [evalReport, h]
      rfl
    · rw [evalEnvClosed, h]
      rfl

/-- Witness for claim C4 at concrete inputs: an environment that
completes one episode per step makes the loop return a collection of the
required length, and an environment that never completes an episode
makes the loop run out of any amount of fuel. -/
theorem seac_c4_witness :
    (1 ≤ ([[("episode_reward", [(3:ℚ)])]] : List MInfo).length ∧
      ∃ T, ([[("episode_reward", [(3:ℚ)])]] : List MInfo) =
        collectedBy (fun _ => [[("episode_reward", [(3:ℚ)])]]) T) ∧
    evalLoopRun (fun _ => ([] : List MInfo)) 1 5 = none := by
  constructor
  · exact (seac_c4_eval (fun _ => [[("episode_reward", [(3:ℚ)])]]) 1 1 "" 0 false 0).2.1
      [[("episode_reward", [(3:ℚ)])]] rfl
  · exact (seac_c4_eval (fun _ => ([] : List MInfo)) 1 5 "" 0 false 0).2.2.1
      (fun t => by rw [collectedBy_nil]; norm_num)

/-- Helper: running updates in any order leaves every storage unchanged,
since an update mutates only the calling agent parameters. -/
theorem runUpdates_storages (rule : List Storage → ℤ → ℤ) :
    ∀ (order : List ℕ) (st : TrainState),
      (runUpdates rule order st).storages = st.storages := by
  intro order
  induction order with
  | nil => intro st; rfl
  | cons i rest ih =>
      intro st
      show (runUpdates rule rest (agentUpdate rule st i)).storages = st.storages
      rw [ih (agentUpdate rule st i)]
      rfl

/-- Helper: every update call of a cycle is passed the same collection of
storages, namely the one the cycle started with. -/
theorem updateReadsSeq_const (rule : List Storage → ℤ → ℤ) :
    ∀ (order : List ℕ) (st : TrainState),
      updateReadsSeq rule order st = List.replicate order.length st.storages := by
  intro order
  induction order with
  | nil => intro st; rfl
  | cons i rest ih =>
      intro st
      show st.storages :: updateReadsSeq rule rest (agentUpdate rule st i) =
        st.storages :: List.replicate rest.length st.storages
      rw [ih (agentUpdate rule st i)]
      rfl

/-- Claim C8: during a shared-experience update cycle the update calls
have read-only access to the storages: whatever learning rule the agents
apply and in whatever order the updates run, no storage changes, and the
collection of storages read by each call is the full starting collection,
identical under any permutation of the update order; moreover every
insert event of the rollout and every after-update event targets the
storage owned by the very agent whose data or call it is, so the
orchestrator only ever writes an agent storage on behalf of its owner. -/
theorem seac_c8_readonly (rule : List Storage → ℤ → ℤ) (st : TrainState)
    (order1 order2 : List ℕ) (hperm : order1.Perm order2)
    (n H s a b a2 b2 : ℕ)
    (hmem : Ev.insertT s a b ∈ cycleTrace n H)
    (hmem2 : Ev.afterUpdateT a2 b2 ∈ cycleTrace n H) :
    (runUpdates rule order1 st).storages = st.storages ∧
    (runUpdates rule order2 st).storages = st.storages ∧
    updateReadsSeq rule order1 st = List.replicate order1.length st.storages ∧
    updateReadsSeq rule order1 st = updateReadsSeq rule order2 st ∧
    a = b ∧ a2 = b2 := by
  refine ⟨runUpdates_storages rule order1 st, runUpdates_storages rule order2 st,
    updateReadsSeq_const rule order1 st, ?_, ?_, ?_⟩
  · rw [updateReadsSeq_const rule order1 st, updateReadsSeq_const rule order2 st,
      hperm.length_eq]
  · simp [cycleTrace, rolloutPhase, stepBlock, postPhase, returnsPhase,
      updatePhase, afterPhase] at hmem
    obtain ⟨s2, hs2, i, hi, h1, h2, h3⟩ := hmem
    omega
  · simp [cycleTrace, rolloutPhase, stepBlock, postPhase, returnsPhase,
      updatePhase, afterPhase] at hmem2
    obtain ⟨i, hi, h1, h2⟩ := hmem2
    omega

/-- Witness for claim C8 at concrete inputs: two agents updated in the
two possible orders on a two-storage state, with the insert and
after-update events of a one-step cycle. -/
theorem seac_c8_witness :
    (runUpdates (fun _ p => p + 1) [0, 1]
        (TrainState.mk [Storage.mk [] [], Storage.mk [] []] [0, 0])).storages =
      (TrainState.mk [Storage.mk [] [], Storage.mk [] []] [0, 0]).storages ∧
    (runUpdates (fun _ p => p + 1) [1, 0]
        (TrainState.mk [Storage.mk [] [], Storage.mk [] []] [0, 0])).storages =
      (TrainState.mk [Storage.mk [] [], Storage.mk [] []] [0, 0]).storages ∧
    updateReadsSeq (fun _ p => p + 1) [0, 1]
        (TrainState.mk [Storage.mk [] [], Storage.mk [] []] [0, 0]) =
      List.replicate ([0, 1] : List ℕ).length
        (TrainState.mk [Storage.mk [] [], Storage.mk [] []] [0, 0]).storages ∧
    updateReadsSeq (fun _ p => p + 1) [0, 1]
        (TrainState.mk [Storage.mk [] [], Storage.mk [] []] [0, 0]) =
      updateReadsSeq (fun _ p => p + 1) [1, 0]
        (TrainState.mk [Storage.mk [] [], Storage.mk [] []] [0, 0]) ∧
    (0 : ℕ) = 0 ∧ (1 : ℕ) = 1 :=
  seac_c8_readonly (fun _ p => p + 1)
    (TrainState.mk [Storage.mk [] [], Storage.mk [] []] [0, 0])
    [0, 1] [1, 0] (by decide) 2 1 0 0 0 1 1 (by decide) (by decide)
